import Mathlib

/-!
# Verification of the vocabulary-builder canister (`src/src/index.ts`)

This file gives a shallow embedding of the storage-and-mutation layer of the
vocabulary-builder service and proves properties about it.

The repository's single source file contains two near-duplicate copies of the
implementation separated by document markers.  The first copy calls a helper
`arePrincipalsEqual` whose definition is commented out, so it cannot run; the
second copy (the one matching the generated candid interface, with the
`trim()`-based input validation) is complete, and it is the one embedded here.

Embedding conventions:
  * `Principal` (an opaque identity compared via `toString()`) is a `String`.
  * `nat64` timestamps and difficulties are `Nat`.
  * `StableBTreeMap<string, V>` is a key-sorted association list
    `List (String × V)` with `mapGet` / `mapInsert` / `mapRemove` /
    `mapValues` mirroring `get` / `insert` / `remove` / `values`
    (`values` returns entries in ascending key order).
  * `ic.caller()`, `ic.time()` and `uuidv4()` are read from an explicit
    environment `Env` resolved once per call, mirroring how each operation
    reads them.
  * azle's `Result<T, string>` variant type is the inductive `Result` below;
    error strings are the literal messages of the source.
  * The source's `typeof x !== 'string'` / `typeof x !== 'number'` guards can
    never fire for arguments that already have the declared type, so in this
    typed embedding they are omitted; the `trim()`-emptiness checks, which can
    fire, are kept.  The `try`/`catch` wrappers catch exceptions that the
    embedded operations cannot raise and are likewise omitted.
-/

namespace VB

/-- azle's `Result<T, E>` variant (`Result.Ok` / `Result.Err`). -/
inductive Result (α : Type) (ε : Type) where
  | Ok : α → Result α ε
  | Err : ε → Result α ε
deriving DecidableEq, Repr

/-- `true` exactly on `Result.Err`. -/
def Result.isErr {α ε : Type} : Result α ε → Bool
  | .Ok _ => false
  | .Err _ => true

/-- The `Word` record of the source (`Principal` as `String`, `nat64` as `Nat`,
`Opt<nat64>` as `Option Nat`). -/
structure Word where
  id : String
  word : String
  meaning : String
  difficulty : Nat
  creator : String
  created_at : Nat
  updated_at : Option Nat
deriving DecidableEq, Repr

/-- The `VocabularyList` record of the source. -/
structure VocabularyList where
  id : String
  name : String
  words : List Word
  creator : String
  created_at : Nat
  updated_at : Option Nat
deriving DecidableEq, Repr

/-- The `WordPayload` record of the source. -/
structure WordPayload where
  word : String
  meaning : String
  difficulty : Nat
deriving DecidableEq, Repr

/-- JavaScript's `String.prototype.trim`: strip leading and trailing
whitespace.  Defined over the string's character list so that concrete
instances evaluate inside the kernel. -/
def strTrim (s : String) : String :=
  ⟨((s.data.dropWhile Char.isWhitespace).reverse.dropWhile Char.isWhitespace).reverse⟩

/-- `StableBTreeMap.get`: the value bound to `k`, scanning the entries. -/
def mapGet {V : Type} (m : List (String × V)) (k : String) : Option V :=
  match m with
  | [] => none
  | (k', v) :: rest => if k' = k then some v else mapGet rest k

/-- `StableBTreeMap.insert`: insert-or-replace, keeping entries in ascending
key order. -/
def mapInsert {V : Type} (k : String) (v : V) : List (String × V) → List (String × V)
  | [] => [(k, v)]
  | (k', v') :: rest =>
      if k < k' then (k, v) :: (k', v') :: rest
      else if k = k' then (k, v) :: rest
      else (k', v') :: mapInsert k v rest

/-- `StableBTreeMap.remove`: drop every entry keyed by `k` (a no-op when the
key is absent). -/
def mapRemove {V : Type} (k : String) (m : List (String × V)) : List (String × V) :=
  m.filter fun kv => kv.1 ≠ k

/-- `StableBTreeMap.values`: the stored values in entry (ascending key)
order. -/
def mapValues {V : Type} (m : List (String × V)) : List V :=
  m.map Prod.snd

/-- The two persistent stores, `wordStorage` and `listStorage`. -/
structure State where
  wordStorage : List (String × Word)
  listStorage : List (String × VocabularyList)
deriving DecidableEq, Repr

/-- The ambient values every operation resolves: `ic.caller()`, `ic.time()`,
and the next `uuidv4()` result. -/
structure Env where
  caller : String
  time : Nat
  freshId : String
deriving DecidableEq, Repr

/-- `addVocabularyList(name)`: validates that the name does not trim to the
empty string, then inserts a fresh list owned by the caller. -/
def addVocabularyList (env : Env) (s : State) (name : String) :
    Result VocabularyList String × State :=
  if strTrim name = "" then
    (Result.Err "Invalid name", s)
  else
    let newVocabularyList : VocabularyList :=
      { id := env.freshId
        name := name
        words := []
        creator := env.caller
        created_at := env.time
        updated_at := none }
    (Result.Ok newVocabularyList,
     { s with listStorage := mapInsert newVocabularyList.id newVocabularyList s.listStorage })

/-- `updateVocabularyList(id, name)`: validates the name, looks the list up,
checks ownership, then replaces the name and stamps `updated_at`. -/
def updateVocabularyList (env : Env) (s : State) (id name : String) :
    Result VocabularyList String × State :=
  if strTrim name = "" then
    (Result.Err "Invalid ID or name", s)
  else
    match mapGet s.listStorage id with
    | some vocabularyList =>
        if vocabularyList.creator ≠ env.caller then
          (Result.Err "You are not authorized to access the Vocabulary List", s)
        else
          let updatedVocabularyList : VocabularyList :=
            { vocabularyList with name := name, updated_at := some env.time }
          (Result.Ok updatedVocabularyList,
           { s with listStorage :=
               mapInsert vocabularyList.id updatedVocabularyList s.listStorage })
    | none => (Result.Err ("Vocabulary List with ID=" ++ id ++ " not found"), s)

/-- The `initWords` constant. -/
def initWords : Nat := 5

/-- `getInitialWords()`: the first `initWords` entries of the word store. -/
def getInitialWords (_env : Env) (s : State) : Result (List Word) String :=
  Result.Ok ((mapValues s.wordStorage).take initWords)

/-- `getAllWords()`: every word in the store, no ownership filtering. -/
def getAllWords (_env : Env) (s : State) : Result (List Word) String :=
  Result.Ok (mapValues s.wordStorage)

/-- `getAllLists()`: every list in the store, no ownership filtering. -/
def getAllLists (_env : Env) (s : State) : Result (List VocabularyList) String :=
  Result.Ok (mapValues s.listStorage)

/-- `getListById(id)`: validates the id, looks up, owner-restricted read. -/
def getListById (env : Env) (s : State) (id : String) :
    Result VocabularyList String :=
  if strTrim id = "" then
    Result.Err "Invalid ID"
  else
    match mapGet s.listStorage id with
    | some list =>
        if list.creator ≠ env.caller then
          Result.Err "Unauthorized access to Vocabulary list"
        else
          Result.Ok list
    | none => Result.Err ("The List with id =" ++ id ++ " not available")

/-- `deleteListById(id)`: validates the id, looks up, checks ownership,
removes the list from the list store. -/
def deleteListById (env : Env) (s : State) (id : String) :
    Result String String × State :=
  if strTrim id = "" then
    (Result.Err "Invalid ID", s)
  else
    match mapGet s.listStorage id with
    | some list =>
        if list.creator ≠ env.caller then
          (Result.Err "Unauthorized access to Vocabulary list", s)
        else
          (Result.Ok ("List with id = " ++ id ++ " deleted successfully"),
           { s with listStorage := mapRemove id s.listStorage })
    | none => (Result.Err ("The List with id =" ++ id ++ " not available"), s)

/-- `addWordToList(id, payload)`: validates the payload (`word` non-blank),
looks the list up, checks ownership, then inserts a fresh word into the word
store and appends it to the list's `words`. -/
def addWordToList (env : Env) (s : State) (id : String) (payload : WordPayload) :
    Result Word String × State :=
  if strTrim payload.word = "" then
    (Result.Err "Invalid word payload", s)
  else
    match mapGet s.listStorage id with
    | some list =>
        if list.creator ≠ env.caller then
          (Result.Err "Unauthorized access to Vocabulary list", s)
        else
          let newWord : Word :=
            { id := env.freshId
              word := payload.word
              meaning := payload.meaning
              difficulty := payload.difficulty
              creator := env.caller
              created_at := env.time
              updated_at := none }
          (Result.Ok newWord,
           { wordStorage := mapInsert newWord.id newWord s.wordStorage
             listStorage :=
               mapInsert list.id { list with words := list.words ++ [newWord] }
                 s.listStorage })
    | none => (Result.Err ("Vocabulary List with ID=" ++ id ++ " not available"), s)

/-- `updateWordInList(listId, wordId, payload)`: looks the list up, checks
ownership, validates the payload, then writes a replacement word — with
`id = wordId` but `creator`/`created_at` taken from the current caller/time —
to the word store, and substitutes it for every entry of the list's `words`
whose id is `wordId`. -/
def updateWordInList (env : Env) (s : State) (listId wordId : String)
    (payload : WordPayload) : Result Word String × State :=
  match mapGet s.listStorage listId with
  | some list =>
      if list.creator ≠ env.caller then
        (Result.Err "Unauthorized access to Vocabulary list", s)
      else if strTrim payload.word = "" then
        (Result.Err "Invalid word payload", s)
      else
        let updatedWord : Word :=
          { id := wordId
            word := payload.word
            meaning := payload.meaning
            difficulty := payload.difficulty
            creator := env.caller
            created_at := env.time
            updated_at := some env.time }
        (Result.Ok updatedWord,
         { wordStorage := mapInsert updatedWord.id updatedWord s.wordStorage
           listStorage :=
             mapInsert list.id
               { list with words :=
                   list.words.map fun word =>
                     if word.id = wordId then updatedWord else word }
               s.listStorage })
  | none => (Result.Err ("Vocabulary List with ID=" ++ listId ++ " not available"), s)

/-- `deleteWordFromList(listId, wordId)`: looks the list up, checks ownership,
filters `wordId` out of the list's `words` (no error if absent), and removes
`wordId` from the word store unconditionally. -/
def deleteWordFromList (env : Env) (s : State) (listId wordId : String) :
    Result String String × State :=
  match mapGet s.listStorage listId with
  | some list =>
      if list.creator ≠ env.caller then
        (Result.Err "Unauthorized access to Vocabulary list", s)
      else
        (Result.Ok ("Word with ID=" ++ wordId ++ " deleted successfully"),
         { wordStorage := mapRemove wordId s.wordStorage
           listStorage :=
             mapInsert list.id
               { list with words := list.words.filter fun word => word.id != wordId }
               s.listStorage })
  | none => (Result.Err ("Vocabulary List with ID=" ++ listId ++ " not available"), s)

/-- `getWordFromList(listId, wordId)`: looks the list up, checks ownership,
then linearly scans the list's `words` for `wordId`, returning the embedded
copy. -/
def getWordFromList (env : Env) (s : State) (listId wordId : String) :
    Result Word String :=
  match mapGet s.listStorage listId with
  | some list =>
      if list.creator ≠ env.caller then
        Result.Err "Unauthorized access to Vocabulary list"
      else
        match list.words.find? (fun word => word.id == wordId) with
        | some word => Result.Ok word
        | none => Result.Err ("Word with ID=" ++ wordId ++ " not found")
  | none => Result.Err ("Vocabulary List with ID=" ++ listId ++ " not available")

/-- `countWordsInList(id)`: looks the list up, checks ownership, returns the
length of `words`. -/
def countWordsInList (env : Env) (s : State) (id : String) :
    Result Nat String :=
  match mapGet s.listStorage id with
  | some list =>
      if list.creator ≠ env.caller then
        Result.Err "Unauthorized access to Vocabulary list"
      else
        Result.Ok list.words.length
  | none => Result.Err ("Vocabulary List with ID=" ++ id ++ " not available")

/-- `changeDifficultyOfWord(wordId, difficulty)`: looks the canonical word up,
checks ownership against the word's own creator, then writes the word back
with the new difficulty and a fresh `updated_at` — to the word store only. -/
def changeDifficultyOfWord (env : Env) (s : State) (wordId : String)
    (difficulty : Nat) : Result Word String × State :=
  match mapGet s.wordStorage wordId with
  | some word =>
      if word.creator ≠ env.caller then
        (Result.Err "Unauthorized access to Vocabulary list", s)
      else
        let updatedWord : Word :=
          { word with difficulty := difficulty, updated_at := some env.time }
        (Result.Ok updatedWord,
         { s with wordStorage := mapInsert updatedWord.id updatedWord s.wordStorage })
  | none => (Result.Err ("The Word with ID=" ++ wordId ++ " not available"), s)

/-- `getWordsByDifficulty(difficulty)`: every word in the store whose
difficulty equals the given value, no ownership filtering. -/
def getWordsByDifficulty (_env : Env) (s : State) (difficulty : Nat) :
    Result (List Word) String :=
  Result.Ok ((mapValues s.wordStorage).filter fun word => word.difficulty == difficulty)

/-! ## Invariants, reachability, and concrete fixtures -/

/-- Embedded/canonical consistency (§3 of the spec): every word embedded in a
stored list's `words` sequence equals the canonical word stored under the same
id in the word store. -/
def Consistent (s : State) : Prop :=
  ∀ k l, mapGet s.listStorage k = some l →
    ∀ w ∈ l.words, mapGet s.wordStorage w.id = some w

/-- The mutating operations, as a syntactic type for the reachability
relation. -/
inductive Op where
  | addList : String → Op
  | updList : String → String → Op
  | delList : String → Op
  | addWord : String → WordPayload → Op
  | updWord : String → String → WordPayload → Op
  | delWord : String → String → Op
  | chgDiff : String → Nat → Op

/-- The state after one mutating operation (queries do not change state). -/
def applyOp (env : Env) (op : Op) (s : State) : State :=
  match op with
  | .addList name => (addVocabularyList env s name).2
  | .updList id name => (updateVocabularyList env s id name).2
  | .delList id => (deleteListById env s id).2
  | .addWord id p => (addWordToList env s id p).2
  | .updWord listId wordId p => (updateWordInList env s listId wordId p).2
  | .delWord listId wordId => (deleteWordFromList env s listId wordId).2
  | .chgDiff wordId d => (changeDifficultyOfWord env s wordId d).2

/-- States reachable from the empty stores by runs of the mutating
operations, where each step's `uuidv4()` value is fresh (bound to no
existing key of either store). -/
inductive Reachable : State → Prop where
  | init : Reachable ⟨[], []⟩
  | step {s : State} (env : Env) (op : Op) :
      Reachable s →
      mapGet s.wordStorage env.freshId = none →
      mapGet s.listStorage env.freshId = none →
      Reachable (applyOp env op s)

/-- A concrete word: the word "hola" created by "alice" at time 2 via
`addWordToList`. -/
def holaWord : Word :=
  { id := "W1", word := "hola", meaning := "hello", difficulty := 1,
    creator := "alice", created_at := 2, updated_at := none }

/-- The payload that produces `holaWord`. -/
def holaPayload : WordPayload := { word := "hola", meaning := "hello", difficulty := 1 }

/-- A concrete list freshly created by "alice", with no words yet. -/
def emptySpanishList : VocabularyList :=
  { id := "L1", name := "Spanish", words := [], creator := "alice",
    created_at := 1, updated_at := none }

/-- `emptySpanishList` after `holaWord` was added to it. -/
def spanishList : VocabularyList :=
  { emptySpanishList with words := [holaWord] }

/-- A second concrete word with a different difficulty. -/
def adiosWord : Word :=
  { id := "W2", word := "adios", meaning := "bye", difficulty := 2,
    creator := "alice", created_at := 3, updated_at := none }

/-- A word store holding words of two different difficulties. -/
def exDiffState : State := ⟨[("W1", holaWord), ("W2", adiosWord)], []⟩

/-- The state after `addVocabularyList("Spanish")` as "alice" at time 1 with
fresh id "L1", starting from empty stores. -/
def exState1 : State := ⟨[], [("L1", emptySpanishList)]⟩

/-- `exState1` after `addWordToList("L1", holaPayload)` as "alice" at time 2
with fresh id "W1". -/
def exState2 : State := ⟨[("W1", holaWord)], [("L1", spanishList)]⟩

/-! ## Store lemmas -/

theorem mapGet_insert_self {V : Type} (k : String) (v : V) (m : List (String × V)) :
    mapGet (mapInsert k v m) k = some v := by
  induction m with
  | nil => simp [mapInsert, mapGet]
  | cons hd tl ih =>
      obtain ⟨k', v'⟩ := hd
      by_cases h1 : k < k'
      · simp [mapInsert, mapGet, h1]
      · by_cases h2 : k = k'
        · simp [mapInsert, mapGet, h1, h2]
        · simp [mapInsert, mapGet, h1, h2, ih, Ne.symm h2]

theorem mapGet_insert_ne {V : Type} {k k'' : String} (v : V) (m : List (String × V))
    (h : k'' ≠ k) : mapGet (mapInsert k v m) k'' = mapGet m k'' := by
  induction m with
  | nil => simp [mapInsert, mapGet, Ne.symm h]
  | cons hd tl ih =>
      obtain ⟨k', v'⟩ := hd
      by_cases h1 : k < k'
      · simp [mapInsert, mapGet, h1, Ne.symm h]
      · by_cases h2 : k = k'
        · subst h2
          simp [mapInsert, mapGet, h1, Ne.symm h]
        · simp only [mapInsert, if_neg h1, if_neg h2, mapGet]
          by_cases h3 : k' = k''
          · simp [h3]
          · simp [h3, ih]

theorem mapGet_remove_self {V : Type} (k : String) (m : List (String × V)) :
    mapGet (mapRemove k m) k = none := by
  induction m with
  | nil => simp [mapRemove, mapGet]
  | cons hd tl ih =>
      obtain ⟨k', v'⟩ := hd
      by_cases h : k' = k
      · simpa [mapRemove, h] using ih
      · simpa [mapRemove, mapGet, h] using ih

theorem mapGet_remove_ne {V : Type} {k k'' : String} (m : List (String × V))
    (h : k'' ≠ k) : mapGet (mapRemove k m) k'' = mapGet m k'' := by
  induction m with
  | nil => simp [mapRemove, mapGet]
  | cons hd tl ih =>
      obtain ⟨k', v'⟩ := hd
      by_cases h1 : k' = k
      · subst h1
        simpa [mapRemove, mapGet, Ne.symm h] using ih
      · by_cases h2 : k' = k''
        · subst h2
          simp [mapRemove, List.filter_cons, h1, mapGet]
        · simpa [mapRemove, List.filter_cons, mapGet, h1, h2] using ih

theorem list_map_eq_self {α : Type} {l : List α} {f : α → α}
    (h : ∀ a ∈ l, f a = a) : l.map f = l := by
  induction l with
  | nil => rfl
  | cons hd tl ih =>
      simp only [List.map_cons, h hd (by simp)]
      rw [ih fun a ha => h a (by simp [ha])]

theorem find_append_last {α : Type} {l : List α} {p : α → Bool} {a : α}
    (h : ∀ x ∈ l, p x = false) (ha : p a = true) :
    (l ++ [a]).find? p = some a := by
  induction l with
  | nil => simp [List.find?, ha]
  | cons hd tl ih =>
      simp only [List.cons_append, List.find?, h hd (by simp)]
      exact ih fun x hx => h x (by simp [hx])

/-! ## Fixture lemmas -/

theorem exState1_only_L1 {k : String} {l : VocabularyList}
    (h : mapGet exState1.listStorage k = some l) : k = "L1" ∧ l = emptySpanishList := by
  simp only [exState1, mapGet] at h
  split at h
  · rename_i hk
    exact ⟨hk.symm, (Option.some.inj h).symm⟩
  · cases h

theorem exState2_only_L1 {k : String} {l : VocabularyList}
    (h : mapGet exState2.listStorage k = some l) : k = "L1" ∧ l = spanishList := by
  simp only [exState2, mapGet] at h
  split at h
  · rename_i hk
    exact ⟨hk.symm, (Option.some.inj h).symm⟩
  · cases h

theorem consistent_exState1 : Consistent exState1 := by
  intro k l h x hx
  obtain ⟨-, rfl⟩ := exState1_only_L1 h
  simp [emptySpanishList] at hx

theorem consistent_exState2 : Consistent exState2 := by
  intro k l h x hx
  obtain ⟨-, rfl⟩ := exState2_only_L1 h
  have hx' : x = holaWord := by simpa [spanishList, emptySpanishList] using hx
  subst hx'
  decide

/-! ## Claim theorems -/

/-- C3: for a word id present in the word store (under its own id) whose
creator is the caller, `changeDifficultyOfWord` returns success, leaves the
list store entirely unchanged, writes back under the same id a word that
changes only `difficulty` and `updated_at` while preserving `id`, `word`,
`meaning`, `creator` and `created_at`, and leaves every other word-store key
unchanged. -/
theorem C3_changeDifficulty_frame (env : Env) (s : State) (wordId : String)
    (d : Nat) (word : Word)
    (hget : mapGet s.wordStorage wordId = some word)
    (hid : word.id = wordId)
    (hcr : word.creator = env.caller) :
    (changeDifficultyOfWord env s wordId d).1 =
        Result.Ok { word with difficulty := d, updated_at := some env.time } ∧
    (changeDifficultyOfWord env s wordId d).2.listStorage = s.listStorage ∧
    mapGet (changeDifficultyOfWord env s wordId d).2.wordStorage wordId =
        some { word with difficulty := d, updated_at := some env.time } ∧
    (∀ k, k ≠ wordId →
      mapGet (changeDifficultyOfWord env s wordId d).2.wordStorage k =
        mapGet s.wordStorage k) := by
  refine ⟨?_, ?_, ?_, fun k hk => ?_⟩
  · simp [changeDifficultyOfWord, hget, hcr]
  · simp [changeDifficultyOfWord, hget, hcr]
  · simp [changeDifficultyOfWord, hget, hcr, hid, mapGet_insert_self]
  · simp [changeDifficultyOfWord, hget, hcr, hid, mapGet_insert_ne _ _ hk]

/-- Witness for C3 at a concrete state: "alice" changes the difficulty of her
own stored word "W1" from 1 to 4 at time 7. -/
theorem C3_changeDifficulty_frame_witness :
    (changeDifficultyOfWord ⟨"alice", 7, "Z9"⟩ exState2 "W1" 4).1 =
        Result.Ok { holaWord with difficulty := 4, updated_at := some 7 } ∧
    (changeDifficultyOfWord ⟨"alice", 7, "Z9"⟩ exState2 "W1" 4).2.listStorage =
        exState2.listStorage :=
  ⟨(C3_changeDifficulty_frame ⟨"alice", 7, "Z9"⟩ exState2 "W1" 4 holaWord
      (by decide) (by decide) (by decide)).1,
   (C3_changeDifficulty_frame ⟨"alice", 7, "Z9"⟩ exState2 "W1" 4 holaWord
      (by decide) (by decide) (by decide)).2.1⟩

/-- C4: on a list owned by the caller and a valid payload,
`updateWordInList` succeeds and returns a word whose `id` is the given
`wordId` but whose `creator` is the current caller and whose `created_at` is
the current time (the original creator and creation time are not preserved),
with `updated_at = Some(now)`; that exact word is written to the word store
under `wordId`. -/
theorem C4_updateWord_resets_provenance (env : Env) (s : State)
    (listId wordId : String) (payload : WordPayload) (list : VocabularyList)
    (hget : mapGet s.listStorage listId = some list)
    (hcr : list.creator = env.caller)
    (hval : strTrim payload.word ≠ "") :
    ∃ w', (updateWordInList env s listId wordId payload).1 = Result.Ok w' ∧
      w'.id = wordId ∧ w'.word = payload.word ∧ w'.meaning = payload.meaning ∧
      w'.difficulty = payload.difficulty ∧ w'.creator = env.caller ∧
      w'.created_at = env.time ∧ w'.updated_at = some env.time ∧
      mapGet (updateWordInList env s listId wordId payload).2.wordStorage wordId =
        some w' := by
  refine ⟨⟨wordId, payload.word, payload.meaning, payload.difficulty,
      env.caller, env.time, some env.time⟩,
    ?_, rfl, rfl, rfl, rfl, rfl, rfl, rfl, ?_⟩
  · simp [updateWordInList, hget, hcr, hval]
  · simp [updateWordInList, hget, hcr, hval, mapGet_insert_self]

/-- Witness for C4: "bob" updates word "W1" in his list; the replacement word
carries creator "bob" and created_at 9 even though the original was created
by "alice" at time 2. -/
theorem C4_updateWord_resets_provenance_witness :
    ∃ w', (updateWordInList ⟨"bob", 9, "Q"⟩
        ⟨[("W1", holaWord)], [("L2", ⟨"L2", "Mine", [holaWord], "bob", 5, none⟩)]⟩
        "L2" "W1" ⟨"adios", "bye", 2⟩).1 = Result.Ok w' ∧
      w'.id = "W1" ∧ w'.word = "adios" ∧ w'.meaning = "bye" ∧
      w'.difficulty = 2 ∧ w'.creator = "bob" ∧ w'.created_at = 9 ∧
      w'.updated_at = some 9 ∧
      mapGet (updateWordInList ⟨"bob", 9, "Q"⟩
        ⟨[("W1", holaWord)], [("L2", ⟨"L2", "Mine", [holaWord], "bob", 5, none⟩)]⟩
        "L2" "W1" ⟨"adios", "bye", 2⟩).2.wordStorage "W1" = some w' :=
  C4_updateWord_resets_provenance ⟨"bob", 9, "Q"⟩
    ⟨[("W1", holaWord)], [("L2", ⟨"L2", "Mine", [holaWord], "bob", 5, none⟩)]⟩
    "L2" "W1" ⟨"adios", "bye", 2⟩ ⟨"L2", "Mine", [holaWord], "bob", 5, none⟩
    (by decide) (by decide) (by decide)

/-- C5: for an existing list owned by the caller, `addWordToList` with a
payload whose `word` field is the empty string returns the invalid-payload
error and leaves both stores exactly as they were. -/
theorem C5_addWord_empty_word_invalid (env : Env) (s : State) (id : String)
    (payload : WordPayload) (list : VocabularyList)
    (hget : mapGet s.listStorage id = some list)
    (hcr : list.creator = env.caller)
    (hw : payload.word = "") :
    addWordToList env s id payload = (Result.Err "Invalid word payload", s) := by
  have ht : strTrim payload.word = "" := by rw [hw]; decide
  simp [addWordToList, ht]

/-- Witness for C5: adding a word with empty text to "alice"'s own list
returns the invalid-payload error and leaves the state untouched. -/
theorem C5_addWord_empty_word_invalid_witness :
    addWordToList ⟨"alice", 3, "W9"⟩ exState1 "L1" ⟨"", "nothing", 1⟩ =
      (Result.Err "Invalid word payload", exState1) :=
  C5_addWord_empty_word_invalid ⟨"alice", 3, "W9"⟩ exState1 "L1"
    ⟨"", "nothing", 1⟩ emptySpanishList (by decide) (by decide) (by decide)

/-- C6: on a list stored under its own id and owned by the caller,
`deleteWordFromList` succeeds for any word id (present in the list or not);
afterwards the word store has no entry under that id, the stored list's
`words` sequence contains no word with that id, and `getWordFromList` by the
same caller returns the word-not-found error. -/
theorem C6_deleteWord_then_get_notFound (env env2 : Env) (s : State)
    (listId wordId : String) (list : VocabularyList)
    (hget : mapGet s.listStorage listId = some list)
    (hkey : list.id = listId)
    (hcr : list.creator = env.caller)
    (hcaller : env2.caller = env.caller) :
    (deleteWordFromList env s listId wordId).1 =
        Result.Ok ("Word with ID=" ++ wordId ++ " deleted successfully") ∧
    mapGet (deleteWordFromList env s listId wordId).2.wordStorage wordId = none ∧
    mapGet (deleteWordFromList env s listId wordId).2.listStorage listId =
        some { list with words := list.words.filter fun w => w.id != wordId } ∧
    (∀ x ∈ list.words.filter fun w => w.id != wordId, x.id ≠ wordId) ∧
    getWordFromList env2 (deleteWordFromList env s listId wordId).2 listId wordId =
        Result.Err ("Word with ID=" ++ wordId ++ " not found") := by
  have hstate : (deleteWordFromList env s listId wordId).2 =
      ⟨mapRemove wordId s.wordStorage,
       mapInsert listId { list with words := list.words.filter fun w => w.id != wordId }
         s.listStorage⟩ := by
    simp [deleteWordFromList, hget, hcr, hkey]
  refine ⟨?_, ?_, ?_, fun x hx => ?_, ?_⟩
  · simp [deleteWordFromList, hget, hcr]
  · rw [hstate]; exact mapGet_remove_self _ _
  · rw [hstate]; exact mapGet_insert_self _ _ _
  · simpa using (List.mem_filter.mp hx).2
  · have hfind : (list.words.filter fun w => w.id != wordId).find?
        (fun word => word.id == wordId) = none := by
      refine List.find?_eq_none.mpr fun x hx => ?_
      have hne : x.id ≠ wordId := by simpa using (List.mem_filter.mp hx).2
      simp [hne]
    rw [hstate]
    simp [getWordFromList, mapGet_insert_self, hcr, hcaller, hfind]

/-- Witness for C6: "alice" deletes "W1" from her list in `exState2`; the
canonical entry and the embedded copy are both gone and a lookup reports
word-not-found. -/
theorem C6_deleteWord_then_get_notFound_witness :
    (deleteWordFromList ⟨"alice", 4, "Z1"⟩ exState2 "L1" "W1").1 =
        Result.Ok ("Word with ID=" ++ "W1" ++ " deleted successfully") ∧
    mapGet (deleteWordFromList ⟨"alice", 4, "Z1"⟩ exState2 "L1" "W1").2.wordStorage "W1" =
        none ∧
    getWordFromList ⟨"alice", 6, "Z2"⟩
        (deleteWordFromList ⟨"alice", 4, "Z1"⟩ exState2 "L1" "W1").2 "L1" "W1" =
      Result.Err ("Word with ID=" ++ "W1" ++ " not found") := by
  have h := C6_deleteWord_then_get_notFound ⟨"alice", 4, "Z1"⟩ ⟨"alice", 6, "Z2"⟩
    exState2 "L1" "W1" spanishList (by decide) (by decide) (by decide) (by decide)
  exact ⟨h.1, h.2.1, h.2.2.2.2⟩

/-- C7: `addVocabularyList` with an empty name returns the invalid-name error
and changes neither store; with a name that does not trim to the empty string
it returns a fresh list whose creator is the caller, whose `words` sequence
is empty, whose `created_at` is the current time and whose `updated_at` is
`None`, and inserts exactly that record into the list store under the freshly
allocated id, leaving the word store unchanged. -/
theorem C7_addVocabularyList_spec (env : Env) (s : State) (name : String) :
    (name = "" → addVocabularyList env s name = (Result.Err "Invalid name", s)) ∧
    (strTrim name ≠ "" →
      ∃ l, addVocabularyList env s name =
          (Result.Ok l, ⟨s.wordStorage, mapInsert env.freshId l s.listStorage⟩) ∧
        l.id = env.freshId ∧ l.name = name ∧ l.creator = env.caller ∧
        l.words = [] ∧ l.created_at = env.time ∧ l.updated_at = none ∧
        mapGet (addVocabularyList env s name).2.listStorage env.freshId = some l ∧
        (addVocabularyList env s name).2.wordStorage = s.wordStorage) := by
  constructor
  · intro h
    subst h
    simp [addVocabularyList, show strTrim "" = "" from by decide]
  · intro h
    refine ⟨⟨env.freshId, name, [], env.caller, env.time, none⟩,
      ?_, rfl, rfl, rfl, rfl, rfl, rfl, ?_, ?_⟩
    · simp [addVocabularyList, h]
    · simp [addVocabularyList, h, mapGet_insert_self]
    · simp [addVocabularyList, h]

/-- Witness for C7: the empty name is rejected without touching the state;
the name "Spanish" yields exactly `emptySpanishList`, stored under "L1". -/
theorem C7_addVocabularyList_spec_witness :
    addVocabularyList ⟨"alice", 1, "L1"⟩ ⟨[], []⟩ "" =
      (Result.Err "Invalid name", ⟨[], []⟩) ∧
    (addVocabularyList ⟨"alice", 1, "L1"⟩ ⟨[], []⟩ "Spanish").1 =
      Result.Ok emptySpanishList ∧
    mapGet (addVocabularyList ⟨"alice", 1, "L1"⟩ ⟨[], []⟩ "Spanish").2.listStorage "L1" =
      some emptySpanishList := by
  refine ⟨(C7_addVocabularyList_spec ⟨"alice", 1, "L1"⟩ ⟨[], []⟩ "").1 rfl, ?_⟩
  obtain ⟨l, heq, hid, hname, hcr, hwords, hca, hua, hg, hw⟩ :=
    (C7_addVocabularyList_spec ⟨"alice", 1, "L1"⟩ ⟨[], []⟩ "Spanish").2 (by decide)
  have hl : l = emptySpanishList := by
    cases l
    simp_all [emptySpanishList]
  subst hl
  exact ⟨by rw [heq], hg⟩

/-- C8: on a list stored under its own id and owned by the caller, a
successful `addWordToList` returning word `W` followed by `getWordFromList`
with the same list id and `W.id`, by the same caller, returns a word equal to
`W` (given that the freshly generated id is not already used inside the
list). -/
theorem C8_addWord_then_getWord (env env2 : Env) (s : State) (id : String)
    (payload : WordPayload) (list : VocabularyList)
    (hget : mapGet s.listStorage id = some list)
    (hkey : list.id = id)
    (hcr : list.creator = env.caller)
    (hcaller : env2.caller = env.caller)
    (hval : strTrim payload.word ≠ "")
    (hfresh : ∀ w ∈ list.words, w.id ≠ env.freshId) :
    ∃ W, (addWordToList env s id payload).1 = Result.Ok W ∧
      getWordFromList env2 (addWordToList env s id payload).2 id W.id =
        Result.Ok W := by
  refine ⟨⟨env.freshId, payload.word, payload.meaning, payload.difficulty,
      env.caller, env.time, none⟩, ?_, ?_⟩
  · simp [addWordToList, hget, hcr, hval]
  · have hstate : (addWordToList env s id payload).2 =
        ⟨mapInsert env.freshId ⟨env.freshId, payload.word, payload.meaning,
            payload.difficulty, env.caller, env.time, none⟩ s.wordStorage,
         mapInsert id { list with words := list.words ++
            [⟨env.freshId, payload.word, payload.meaning, payload.difficulty,
              env.caller, env.time, none⟩] } s.listStorage⟩ := by
      simp [addWordToList, hget, hcr, hval, hkey]
    have hfind : (list.words ++ [(⟨env.freshId, payload.word, payload.meaning,
        payload.difficulty, env.caller, env.time, none⟩ : Word)]).find?
          (fun word => word.id == env.freshId) =
        some ⟨env.freshId, payload.word, payload.meaning, payload.difficulty,
          env.caller, env.time, none⟩ := by
      refine find_append_last (fun x hx => ?_) (by simp)
      simp [hfresh x hx]
    rw [hstate]
    simp [getWordFromList, mapGet_insert_self, hcr, hcaller, hfind]

/-- Witness for C8: "alice" adds "hola" to her empty list "L1" and reads it
back unchanged. -/
theorem C8_addWord_then_getWord_witness :
    ∃ W, (addWordToList ⟨"alice", 2, "W1"⟩ exState1 "L1" holaPayload).1 =
        Result.Ok W ∧
      getWordFromList ⟨"alice", 8, "Z3"⟩
          (addWordToList ⟨"alice", 2, "W1"⟩ exState1 "L1" holaPayload).2 "L1" W.id =
        Result.Ok W :=
  C8_addWord_then_getWord ⟨"alice", 2, "W1"⟩ ⟨"alice", 8, "Z3"⟩ exState1 "L1"
    holaPayload emptySpanishList (by decide) (by decide) (by decide) (by decide)
    (by decide) (by decide)

/-- C9: `getWordsByDifficulty(d)` returns exactly those words of
`getAllWords()` whose difficulty equals `d`, and neither operation depends on
the caller (no ownership filtering). -/
theorem C9_wordsByDifficulty_filter (env env2 : Env) (s : State) (d : Nat)
    (ws : List Word) (h : getAllWords env s = Result.Ok ws) :
    getWordsByDifficulty env s d =
      Result.Ok (ws.filter fun w => w.difficulty == d) ∧
    getWordsByDifficulty env s d = getWordsByDifficulty env2 s d ∧
    getAllWords env s = getAllWords env2 s := by
  have hws : mapValues s.wordStorage = ws := by
    simpa [getAllWords] using h
  subst hws
  exact ⟨rfl, rfl, rfl⟩

/-- Witness for C9: with two stored words of difficulties 1 and 2, filtering
by difficulty 1 returns exactly the difficulty-1 word, for an arbitrary
caller. -/
theorem C9_wordsByDifficulty_filter_witness :
    getWordsByDifficulty ⟨"eve", 9, "Q"⟩ exDiffState 1 = Result.Ok [holaWord] :=
  ((C9_wordsByDifficulty_filter ⟨"eve", 9, "Q"⟩ ⟨"bob", 1, "R"⟩ exDiffState 1
      [holaWord, adiosWord] (by decide)).1).trans (by decide)

/-- C10: on a list stored under its own id and owned by the caller, and a
word id embedded in no stored list, `updateWordInList` with a valid payload
still succeeds: it inserts a canonical entry under the given word id into the
word store while the stored list keeps exactly the same `words` sequence, so
the new canonical word has no embedded copy in any list. -/
theorem C10_updateWord_absent_id (env : Env) (s : State) (listId wordId : String)
    (payload : WordPayload) (list : VocabularyList)
    (hget : mapGet s.listStorage listId = some list)
    (hkey : list.id = listId)
    (hcr : list.creator = env.caller)
    (hval : strTrim payload.word ≠ "")
    (habsent : ∀ k l', mapGet s.listStorage k = some l' → ∀ x ∈ l'.words, x.id ≠ wordId) :
    ∃ w', (updateWordInList env s listId wordId payload).1 = Result.Ok w' ∧
      w'.id = wordId ∧
      mapGet (updateWordInList env s listId wordId payload).2.wordStorage wordId =
        some w' ∧
      mapGet (updateWordInList env s listId wordId payload).2.listStorage listId =
        some list ∧
      (∀ k l', mapGet (updateWordInList env s listId wordId payload).2.listStorage k =
          some l' → ∀ x ∈ l'.words, x.id ≠ wordId) := by
  have hmap : (list.words.map fun word =>
      if word.id = wordId
      then (⟨wordId, payload.word, payload.meaning, payload.difficulty,
        env.caller, env.time, some env.time⟩ : Word)
      else word) = list.words :=
    list_map_eq_self fun a ha => by simp [habsent listId list hget a ha]
  have hlist : ({ list with words := list.words.map fun word =>
      if word.id = wordId
      then (⟨wordId, payload.word, payload.meaning, payload.difficulty,
        env.caller, env.time, some env.time⟩ : Word)
      else word } : VocabularyList) = list := by
    rw [hmap]
  have hcr' : ¬ list.creator ≠ env.caller := by simp [hcr]
  have hstate : (updateWordInList env s listId wordId payload).2 =
      ⟨mapInsert wordId ⟨wordId, payload.word, payload.meaning, payload.difficulty,
          env.caller, env.time, some env.time⟩ s.wordStorage,
       mapInsert listId list s.listStorage⟩ := by
    simp only [updateWordInList, hget, if_neg hcr', if_neg hval]
    rw [hlist, hkey]
  refine ⟨⟨wordId, payload.word, payload.meaning, payload.difficulty,
      env.caller, env.time, some env.time⟩, ?_, rfl, ?_, ?_, ?_⟩
  · simp [updateWordInList, hget, hcr, hval]
  · rw [hstate]; exact mapGet_insert_self _ _ _
  · rw [hstate]; exact mapGet_insert_self _ _ _
  · intro k l' h x hx
    rw [hstate] at h
    by_cases hk : k = listId
    · subst hk
      rw [mapGet_insert_self] at h
      cases h
      exact habsent k list hget x hx
    · rw [mapGet_insert_ne _ _ hk] at h
      exact habsent k l' h x hx

/-- Witness for C10: "alice" calls `updateWordInList` on her list "L1" with
the fresh word id "W7", absent from every list; the call succeeds, stores a
canonical word under "W7", and leaves the list's `words` sequence unchanged. -/
theorem C10_updateWord_absent_id_witness :
    ∃ w', (updateWordInList ⟨"alice", 6, "Q"⟩ exState2 "L1" "W7" ⟨"sol", "sun", 3⟩).1 =
        Result.Ok w' ∧
      w'.id = "W7" ∧
      mapGet (updateWordInList ⟨"alice", 6, "Q"⟩ exState2 "L1" "W7"
          ⟨"sol", "sun", 3⟩).2.wordStorage "W7" = some w' ∧
      mapGet (updateWordInList ⟨"alice", 6, "Q"⟩ exState2 "L1" "W7"
          ⟨"sol", "sun", 3⟩).2.listStorage "L1" = some spanishList ∧
      (∀ k l', mapGet (updateWordInList ⟨"alice", 6, "Q"⟩ exState2 "L1" "W7"
          ⟨"sol", "sun", 3⟩).2.listStorage k = some l' → ∀ x ∈ l'.words, x.id ≠ "W7") :=
  C10_updateWord_absent_id ⟨"alice", 6, "Q"⟩ exState2 "L1" "W7" ⟨"sol", "sun", 3⟩
    spanishList (by decide) (by decide) (by decide) (by decide)
    (fun k l' h x hx => by
      obtain ⟨-, rfl⟩ := exState2_only_L1 h
      have hx' : x = holaWord := by simpa [spanishList, emptySpanishList] using hx
      subst hx'
      decide)

/-- C2 counterexample: `updateVocabularyList` validates the name before the
ownership check, so a caller different from the list's creator who passes a
blank name receives the invalid-input error, not the unauthorized error —
refuting "updateVocabularyList called by a caller different from the list's
creator returns Unauthorized" as universally stated (the stores are still
left unchanged). -/
theorem C2_counterexample :
    emptySpanishList.creator ≠ (Env.mk "bob" 5 "X").caller ∧
    updateVocabularyList ⟨"bob", 5, "X"⟩ exState1 "L1" "" =
      (Result.Err "Invalid ID or name", exState1) ∧
    (updateVocabularyList ⟨"bob", 5, "X"⟩ exState1 "L1" "").1 ≠
      Result.Err "You are not authorized to access the Vocabulary List" := by
  refine ⟨by decide, by decide, by decide⟩

/-- C2 (amended): every mutating operation that returns an error value leaves
both stores exactly as they were before the call; and `updateVocabularyList`
with a non-blank name, called on a stored list by a caller different from the
list's creator, returns the unauthorized error and leaves the state
unchanged. -/
theorem C2_errors_leave_state_unchanged :
    (∀ env s name, (addVocabularyList env s name).1.isErr = true →
        (addVocabularyList env s name).2 = s) ∧
    (∀ env s id name, (updateVocabularyList env s id name).1.isErr = true →
        (updateVocabularyList env s id name).2 = s) ∧
    (∀ env s id, (deleteListById env s id).1.isErr = true →
        (deleteListById env s id).2 = s) ∧
    (∀ env s id payload, (addWordToList env s id payload).1.isErr = true →
        (addWordToList env s id payload).2 = s) ∧
    (∀ env s listId wordId payload,
        (updateWordInList env s listId wordId payload).1.isErr = true →
        (updateWordInList env s listId wordId payload).2 = s) ∧
    (∀ env s listId wordId, (deleteWordFromList env s listId wordId).1.isErr = true →
        (deleteWordFromList env s listId wordId).2 = s) ∧
    (∀ env s wordId d, (changeDifficultyOfWord env s wordId d).1.isErr = true →
        (changeDifficultyOfWord env s wordId d).2 = s) ∧
    (∀ env s id name list, mapGet s.listStorage id = some list →
        list.creator ≠ env.caller → strTrim name ≠ "" →
        updateVocabularyList env s id name =
          (Result.Err "You are not authorized to access the Vocabulary List", s)) := by
  refine ⟨?_, ?_, ?_, ?_, ?_, ?_, ?_, ?_⟩
  · intro env s name
    unfold addVocabularyList
    repeat' split
    all_goals intro h
    all_goals simp_all [Result.isErr]
  · intro env s id name
    unfold updateVocabularyList
    repeat' split
    all_goals intro h
    all_goals simp_all [Result.isErr]
  · intro env s id
    unfold deleteListById
    repeat' split
    all_goals intro h
    all_goals simp_all [Result.isErr]
  · intro env s id payload
    unfold addWordToList
    repeat' split
    all_goals intro h
    all_goals simp_all [Result.isErr]
  · intro env s listId wordId payload
    unfold updateWordInList
    repeat' split
    all_goals intro h
    all_goals simp_all [Result.isErr]
  · intro env s listId wordId
    unfold deleteWordFromList
    repeat' split
    all_goals intro h
    all_goals simp_all [Result.isErr]
  · intro env s wordId d
    unfold changeDifficultyOfWord
    repeat' split
    all_goals intro h
    all_goals simp_all [Result.isErr]
  · intro env s id name list hget hcr hval
    simp [updateVocabularyList, hget, hcr, hval]

/-- Witness for C2: a failing create on empty stores writes nothing, and
"bob" updating "alice"'s list with a well-formed name gets the unauthorized
error with the state unchanged. -/
theorem C2_errors_leave_state_unchanged_witness :
    (addVocabularyList ⟨"alice", 1, "L1"⟩ ⟨[], []⟩ "").2 = ⟨[], []⟩ ∧
    updateVocabularyList ⟨"bob", 5, "X"⟩ exState1 "L1" "Names" =
      (Result.Err "You are not authorized to access the Vocabulary List", exState1) :=
  ⟨C2_errors_leave_state_unchanged.1 ⟨"alice", 1, "L1"⟩ ⟨[], []⟩ "" (by decide),
   C2_errors_leave_state_unchanged.2.2.2.2.2.2.2 ⟨"bob", 5, "X"⟩ exState1 "L1"
     "Names" emptySpanishList (by decide) (by decide) (by decide)⟩

/-- C1 counterexample: `exState2` is reachable (create the list "Spanish",
then add the word "hola" to it, all as "alice" with fresh ids), and the
word-affecting operation `changeDifficultyOfWord("W1", 3)` succeeds from it —
yet afterwards the copy of "W1" embedded in list "L1" (difficulty 1) differs
from the canonical entry under the same id in the word store (difficulty 3):
the operation does not propagate to the embedded copy. -/
theorem C1_counterexample :
    Reachable exState2 ∧
    (changeDifficultyOfWord ⟨"alice", 3, "Z9"⟩ exState2 "W1" 3).1 =
      Result.Ok { holaWord with difficulty := 3, updated_at := some 3 } ∧
    mapGet (changeDifficultyOfWord ⟨"alice", 3, "Z9"⟩ exState2 "W1" 3).2.listStorage
      "L1" = some spanishList ∧
    holaWord ∈ spanishList.words ∧
    mapGet (changeDifficultyOfWord ⟨"alice", 3, "Z9"⟩ exState2 "W1" 3).2.wordStorage
      holaWord.id ≠ some holaWord := by
  refine ⟨?_, rfl, rfl, by decide, ?_⟩
  · have h1 : Reachable (applyOp ⟨"alice", 1, "L1"⟩ (Op.addList "Spanish") ⟨[], []⟩) :=
      Reachable.step ⟨"alice", 1, "L1"⟩ (Op.addList "Spanish") Reachable.init
        (by decide) (by decide)
    have e1 : applyOp ⟨"alice", 1, "L1"⟩ (Op.addList "Spanish") ⟨[], []⟩ = exState1 := rfl
    rw [e1] at h1
    have h2 := Reachable.step ⟨"alice", 2, "W1"⟩ (Op.addWord "L1" holaPayload) h1
      (by decide) (by decide)
    have e2 : applyOp ⟨"alice", 2, "W1"⟩ (Op.addWord "L1" holaPayload) exState1 =
        exState2 := by
      simp [applyOp, addWordToList, exState1, exState2, emptySpanishList, spanishList,
        holaPayload, holaWord, mapGet, mapInsert, strTrim]
    rwa [e2] at h2
  · intro hcontra
    have h0 : mapGet (changeDifficultyOfWord ⟨"alice", 3, "Z9"⟩ exState2 "W1"
        3).2.wordStorage holaWord.id =
        some ⟨"W1", "hola", "hello", 3, "alice", 2, some 3⟩ := by
      simp [changeDifficultyOfWord, exState2, holaWord, mapGet, mapInsert]
    have heq : (⟨"W1", "hola", "hello", 3, "alice", 2, some 3⟩ : Word) =
        holaWord := Option.some.inj (h0.symm.trans hcontra)
    simp [holaWord] at heq

/-- C1 (amended): embedded/canonical consistency is preserved by the
successful word-affecting operations that write both stores — `addWordToList`
(when the generated id is fresh for the word store), `updateWordInList` and
`deleteWordFromList` (when the targeted word id is embedded in no list other
than the addressed one, which is stored under its own id) — each part also
recording that the operation succeeds; `changeDifficultyOfWord` is excluded:
it updates only the canonical word store and can leave an embedded copy
different from the canonical entry (see its counterexample). -/
theorem C1_consistency_preserved (env : Env) (s : State) :
    (∀ id payload list, Consistent s →
       mapGet s.listStorage id = some list →
       list.creator = env.caller →
       strTrim payload.word ≠ "" →
       mapGet s.wordStorage env.freshId = none →
       (addWordToList env s id payload).1.isErr = false ∧
       Consistent (addWordToList env s id payload).2) ∧
    (∀ listId wordId payload list, Consistent s →
       mapGet s.listStorage listId = some list →
       list.id = listId →
       list.creator = env.caller →
       strTrim payload.word ≠ "" →
       (∀ k l', mapGet s.listStorage k = some l' → k ≠ listId →
         ∀ x ∈ l'.words, x.id ≠ wordId) →
       (updateWordInList env s listId wordId payload).1.isErr = false ∧
       Consistent (updateWordInList env s listId wordId payload).2) ∧
    (∀ listId wordId list, Consistent s →
       mapGet s.listStorage listId = some list →
       list.id = listId →
       list.creator = env.caller →
       (∀ k l', mapGet s.listStorage k = some l' → k ≠ listId →
         ∀ x ∈ l'.words, x.id ≠ wordId) →
       (deleteWordFromList env s listId wordId).1.isErr = false ∧
       Consistent (deleteWordFromList env s listId wordId).2) := by
  refine ⟨?_, ?_, ?_⟩
  · intro id payload list hcons hget hcr hval hfresh
    constructor
    · simp [addWordToList, hget, hcr, hval, Result.isErr]
    have hstate : (addWordToList env s id payload).2 =
        ⟨mapInsert env.freshId ⟨env.freshId, payload.word, payload.meaning,
            payload.difficulty, env.caller, env.time, none⟩ s.wordStorage,
         mapInsert list.id { list with words := list.words ++
            [⟨env.freshId, payload.word, payload.meaning, payload.difficulty,
              env.caller, env.time, none⟩] } s.listStorage⟩ := by
      simp [addWordToList, hget, hcr, hval]
    rw [hstate]
    intro k l hget' x hx
    simp only at hget' hx ⊢
    by_cases hk : k = list.id
    · subst hk
      rw [mapGet_insert_self] at hget'
      cases hget'
      simp only [List.mem_append, List.mem_singleton] at hx
      rcases hx with hx | hx
      · have hold := hcons id list hget x hx
        have hne : x.id ≠ env.freshId := fun hxe => by
          rw [hxe, hfresh] at hold
          cases hold
        rw [mapGet_insert_ne _ _ hne]
        exact hold
      · subst hx
        exact mapGet_insert_self _ _ _
    · rw [mapGet_insert_ne _ _ hk] at hget'
      have hold := hcons k l hget' x hx
      have hne : x.id ≠ env.freshId := fun hxe => by
        rw [hxe, hfresh] at hold
        cases hold
      rw [mapGet_insert_ne _ _ hne]
      exact hold
  · intro listId wordId payload list hcons hget hkey hcr hval hnoshare
    have hcr' : ¬ list.creator ≠ env.caller := by simp [hcr]
    constructor
    · simp [updateWordInList, hget, hcr, hval, Result.isErr]
    have hstate : (updateWordInList env s listId wordId payload).2 =
        ⟨mapInsert wordId ⟨wordId, payload.word, payload.meaning,
            payload.difficulty, env.caller, env.time, some env.time⟩ s.wordStorage,
         mapInsert list.id { list with words := list.words.map fun word =>
            if word.id = wordId
            then ⟨wordId, payload.word, payload.meaning, payload.difficulty,
              env.caller, env.time, some env.time⟩
            else word } s.listStorage⟩ := by
      simp only [updateWordInList, hget, if_neg hcr', if_neg hval]
    rw [hstate]
    intro k l hget' x hx
    simp only at hget' hx ⊢
    by_cases hk : k = list.id
    · subst hk
      rw [mapGet_insert_self] at hget'
      cases hget'
      simp only [List.mem_map] at hx
      obtain ⟨w0, hw0, hfx⟩ := hx
      by_cases hw0id : w0.id = wordId
      · rw [if_pos hw0id] at hfx
        subst hfx
        exact mapGet_insert_self _ _ _
      · rw [if_neg hw0id] at hfx
        subst hfx
        rw [mapGet_insert_ne _ _ hw0id]
        exact hcons listId list hget w0 hw0
    · have hkl : k ≠ listId := fun hkl => hk (hkl.trans hkey.symm)
      rw [mapGet_insert_ne _ _ hk] at hget'
      have hxid := hnoshare k l hget' hkl x hx
      rw [mapGet_insert_ne _ _ hxid]
      exact hcons k l hget' x hx
  · intro listId wordId list hcons hget hkey hcr hnoshare
    have hcr' : ¬ list.creator ≠ env.caller := by simp [hcr]
    constructor
    · simp [deleteWordFromList, hget, hcr, Result.isErr]
    have hstate : (deleteWordFromList env s listId wordId).2 =
        ⟨mapRemove wordId s.wordStorage,
         mapInsert list.id
           { list with words := list.words.filter fun word => word.id != wordId }
           s.listStorage⟩ := by
      simp only [deleteWordFromList, hget, if_neg hcr']
    rw [hstate]
    intro k l hget' x hx
    simp only at hget' hx ⊢
    by_cases hk : k = list.id
    · subst hk
      rw [mapGet_insert_self] at hget'
      cases hget'
      simp only [List.mem_filter] at hx
      obtain ⟨hxmem, hxne⟩ := hx
      have hxid : x.id ≠ wordId := by simpa using hxne
      rw [mapGet_remove_ne _ hxid]
      exact hcons listId list hget x hxmem
    · have hkl : k ≠ listId := fun hkl => hk (hkl.trans hkey.symm)
      rw [mapGet_insert_ne _ _ hk] at hget'
      have hxid := hnoshare k l hget' hkl x hx
      rw [mapGet_remove_ne _ hxid]
      exact hcons k l hget' x hx

/-- Witness for C1 (amended): the three preserved cases exercised on the
concrete states — adding "hola" to the fresh list, then updating and deleting
"W1" in `exState2`. -/
theorem C1_consistency_preserved_witness :
    Consistent (addWordToList ⟨"alice", 2, "W1"⟩ exState1 "L1" holaPayload).2 ∧
    Consistent (updateWordInList ⟨"alice", 4, "Q1"⟩ exState2 "L1" "W1"
      ⟨"hola", "hi there", 2⟩).2 ∧
    Consistent (deleteWordFromList ⟨"alice", 5, "Q2"⟩ exState2 "L1" "W1").2 := by
  have honly : ∀ k l', mapGet exState2.listStorage k = some l' → k ≠ "L1" →
      ∀ x ∈ l'.words, x.id ≠ "W1" := by
    intro k l' h hk
    exact absurd (exState2_only_L1 h).1 hk
  refine ⟨((C1_consistency_preserved ⟨"alice", 2, "W1"⟩ exState1).1 "L1" holaPayload
      emptySpanishList consistent_exState1 (by decide) (by decide) (by decide)
      (by decide)).2,
    ((C1_consistency_preserved ⟨"alice", 4, "Q1"⟩ exState2).2.1 "L1" "W1"
      ⟨"hola", "hi there", 2⟩ spanishList consistent_exState2 (by decide) (by decide)
      (by decide) (by decide) honly).2,
    ((C1_consistency_preserved ⟨"alice", 5, "Q2"⟩ exState2).2.2 "L1" "W1"
      spanishList consistent_exState2 (by decide) (by decide) (by decide) honly).2⟩

end VB
